import Mathlib

/-!
Verification of the StaticSitesClient install pipeline
(`.github/actions/staticsitesclient/src/install.ts`, `input-helper` and
`main.ts`).  The TypeScript source is embedded shallowly: pure logic becomes
Lean functions, the effectful `Install` orchestration becomes a function of
an explicit environment (fetched metadata, cache outcomes, process platform
and architecture, exec results) returning an `Except` outcome together with
the list of observable events (download calls and warning logs).
-/

namespace StaticSites

/-- Tool name constant `TOOL_NAME = 'StaticSitesClient'` from install.ts. -/
def TOOL_NAME : String := "StaticSitesClient"

/-- One release entry of the remote metadata document:
`{ buildId, version, files: { "<platform>-<arch>": { url } } }`.
The `files` object is modelled as an association list from platform key to
the `url` string of the file descriptor. -/
structure ReleaseEntry where
  buildId : String
  version : String
  files : List (String × String)
deriving DecidableEq, Repr

/-- `ISourceInputs`: the version specifier and the execute flag. -/
structure SourceInputs where
  version : String
  execute : Bool
deriving DecidableEq, Repr

/-! ### The version-specifier regex of `getReleaseMetadata`

install.ts line 155 tests `/([\d])+.([\d])+.([\d]+)/.test(releaseVersion)`.
The dots in this regular expression are unescaped, so each matches any
single character other than a line terminator, and the test is unanchored:
the string matches iff it contains a block of one or more digits, then any
character, then digits, then any character, then digits.  We embed exactly
that semantics on `List Char`. -/

/-- JavaScript `.` in a regex without the `s` flag: any character that is
not a line terminator (`\n`, `\r`, U+2028, U+2029). -/
def jsAnyChar (c : Char) : Bool :=
  c ≠ '\n' && c ≠ '\r' && c ≠ Char.ofNat 0x2028 && c ≠ Char.ofNat 0x2029

/-- Anchored match of the trailing `([\d]+)` group: the remaining input
starts with at least one digit. -/
def matchDigits1 : List Char → Bool
  | [] => false
  | c :: _ => c.isDigit

/-- After one or more digits of the second group have been consumed:
either consume the second unescaped dot and require the third digit group,
or consume a further digit of the second group. -/
def matchGap2 : List Char → Bool
  | [] => false
  | c :: rest => (jsAnyChar c && matchDigits1 rest) || (c.isDigit && matchGap2 rest)

/-- Anchored match of `([\d])+.([\d]+)`: a digit, then `matchGap2`. -/
def matchDigits2 : List Char → Bool
  | [] => false
  | c :: rest => c.isDigit && matchGap2 rest

/-- After one or more digits of the first group have been consumed:
either consume the first unescaped dot and require the remaining
`([\d])+.([\d]+)`, or consume a further digit of the first group. -/
def matchGap1 : List Char → Bool
  | [] => false
  | c :: rest => (jsAnyChar c && matchDigits2 rest) || (c.isDigit && matchGap1 rest)

/-- Anchored match of the full pattern `([\d])+.([\d])+.([\d]+)`. -/
def matchTripleHere : List Char → Bool
  | [] => false
  | c :: rest => c.isDigit && matchGap1 rest

/-- Unanchored `.test`: the pattern matches at some position. -/
def testTriple : List Char → Bool
  | [] => false
  | c :: rest => matchTripleHere (c :: rest) || testTriple rest

/-- `/([\d])+.([\d])+.([\d]+)/.test(s)` — the build-identifier test that
install.ts actually performs on the specifier. -/
def matchesBuildIdPattern (s : String) : Bool :=
  testTriple s.data

/-! The literal pattern named by the spec, `\d+\.\d+\.\d+` (dots escaped),
for comparison with the code's test.  Same structure, with the separating
characters required to be literal dots. -/

/-- Intermediate state of the literal dotted-triple matcher after the
second digit group has begun. -/
def dottedGap2 : List Char → Bool
  | [] => false
  | c :: rest => (c = '.' && matchDigits1 rest) || (c.isDigit && dottedGap2 rest)

/-- Anchored match of the literal `\d+\.\d+`. -/
def dottedDigits2 : List Char → Bool
  | [] => false
  | c :: rest => c.isDigit && dottedGap2 rest

/-- Intermediate state of the literal dotted-triple matcher after the
first digit group has begun. -/
def dottedGap1 : List Char → Bool
  | [] => false
  | c :: rest => (c = '.' && dottedDigits2 rest) || (c.isDigit && dottedGap1 rest)

/-- Anchored match of the literal `\d+\.\d+\.\d+`. -/
def dottedTripleHere : List Char → Bool
  | [] => false
  | c :: rest => c.isDigit && dottedGap1 rest

/-- Unanchored containment of the literal `\d+\.\d+\.\d+`. -/
def dottedTripleFrom : List Char → Bool
  | [] => false
  | c :: rest => dottedTripleHere (c :: rest) || dottedTripleFrom rest

/-- The spec's build-identifier pattern: the specifier matches the numeric
dotted triple `\d+\.\d+\.\d+` (unanchored, dots literal). -/
def containsDottedTriple (s : String) : Bool :=
  dottedTripleFrom s.data

/-! ### Failure outcomes

Each `core.setFailed(...) ; process.exit()` site and each uncaught runtime
error of the pipeline is one constructor. -/

/-- Terminating outcomes of the pipeline. -/
inductive Failure where
  /-- `Could not fetch release metadata …` (document absent, not an array,
  or an empty array). -/
  | metadataFetch
  /-- An uncaught JavaScript `TypeError` from dereferencing a property of
  `undefined` (no matching release entry, or missing `files` key). -/
  | typeError
  /-- `Unsupported architecture: …`. -/
  | unsupportedArch (arch : String)
  /-- `Unsupported platform: …`. -/
  | unsupportedPlatform (platform : String)
  /-- `Could not download …`. -/
  | downloadFailed
  /-- An uncaught error from `exec.getExecOutput` (tool version query or
  `lsb_release` query). -/
  | execError
deriving DecidableEq, Repr

/-- `getReleaseMetadata(releaseVersion)` from install.ts lines 149–165.
The fetched JSON is modelled as `doc`: `none` when the parsed body is not
an array, otherwise the list of elements, each `none` when the element is
`null`/`undefined`.  If the array is non-empty the function assigns the
result of `Array.prototype.find` — possibly `undefined`, here `none` — and
returns it; otherwise it fails and exits. -/
def getReleaseMetadata (releaseVersion : String)
    (doc : Option (List (Option ReleaseEntry))) :
    Except Failure (Option ReleaseEntry) :=
  match doc with
  | some defs =>
    if defs.isEmpty then
      .error .metadataFetch
    else if matchesBuildIdPattern releaseVersion then
      .ok ((defs.find? fun vd => (vd.map ReleaseEntry.buildId) == some releaseVersion).join)
    else
      .ok ((defs.find? fun vd => (vd.map ReleaseEntry.version) == some releaseVersion).join)
  | none => .error .metadataFetch

/-! ### URL, filename and path helpers -/

/-- The two fields of a WHATWG `URL` object that install.ts reads:
`href` and `pathname`. -/
structure URLObj where
  href : String
  pathname : String
deriving DecidableEq, Repr

/-- JavaScript `String.prototype.split` with a one-character separator:
always returns a non-empty list; an empty input yields `[[]]`, a leading
or trailing separator yields an empty first or last chunk. -/
def jsSplit (sep : Char) : List Char → List (List Char)
  | [] => [[]]
  | c :: rest =>
    if c = sep then
      [] :: jsSplit sep rest
    else
      match jsSplit sep rest with
      | [] => [[c]]
      | chunk :: chunks => (c :: chunk) :: chunks

/-- `downloadUrl.pathname.split('/').slice(1).at(-1) || ''` — the filename
computation of install.ts line 145. -/
def filenameOfPathname (pathname : String) : String :=
  String.mk ((((jsSplit '/' pathname.data).drop 1).getLast?).getD [])

/-- The last `'/'`-separated segment of a path (the spec's description of
the filename), for comparison with `filenameOfPathname`. -/
def lastSegment (pathname : String) : String :=
  String.mk (((jsSplit '/' pathname.data).getLast?).getD [])

/-- JavaScript `String.prototype.trim`: strip leading and trailing
whitespace. -/
def strTrim (s : String) : String :=
  String.mk (((s.data.dropWhile Char.isWhitespace).reverse.dropWhile
    Char.isWhitespace).reverse)

/-- Node `path.join` restricted to the two-argument shapes install.ts
uses: joining with an empty component returns the other component
unchanged, otherwise the components are joined with one separator. -/
def pathJoin (a b : String) : String :=
  if a = "" then b else if b = "" then a else a ++ "/" ++ b

/-! ### Cache key derivation (`getCacheKey`, install.ts lines 60–70) -/

/-- The pure string computed by `getCacheKey` once the `lsb_release -cs`
output is at hand: `"{TOOL_NAME}-{version}-{platform}-{arch}"`, then
`"-{lsbRelease}"` when the platform is `linux`, then `"-cache"`. -/
def cacheKeyString (version platform arch lsbRelease : String) : String :=
  (TOOL_NAME ++ "-" ++ version ++ "-" ++ platform ++ "-" ++ arch)
    ++ (if platform = "linux" then "-" ++ lsbRelease else "")
    ++ "-cache"

/-- `getCacheKey(version)`: on `linux` it first runs `lsb_release -cs`
(`lsbExec` is the raw stdout of that command, `none` when the command
throws, in which case the error propagates); the codename is the trimmed
stdout. -/
def getCacheKey (lsbExec : Option String) (version platform arch : String) :
    Except Failure String :=
  if platform = "linux" then
    match lsbExec with
    | some out => .ok (cacheKeyString version platform arch (strTrim out))
    | none => .error .execError
  else
    .ok (cacheKeyString version platform arch "")

/-! ### Cache restore / save, download, and the observable event trace -/

/-- Observable effects the claims talk about: a call to
`toolCache.downloadTool` (recorded with the `href` passed to it) and a
`core.warning` log. -/
inductive Event where
  | download (href : String)
  | warning (msg : String)
deriving DecidableEq, Repr

/-- Whether an event is a download call. -/
def Event.isDownload : Event → Bool
  | .download _ => true
  | .warning _ => false

/-- Outcome of `cache.restoreCache`: a hit returning the matched key, a
miss returning `undefined`, or a thrown error with a message. -/
inductive RestoreOutcome where
  | hit (key : String)
  | miss
  | throwErr (msg : String)
deriving DecidableEq, Repr

/-- Outcome of `cache.saveCache`: a cache id, or a thrown error. -/
inductive SaveOutcome where
  | ok (cacheId : Nat)
  | throwErr (msg : String)
deriving DecidableEq, Repr

/-- `tryRestoreFromCache` (install.ts lines 106–122): a hit sets
`restoredFromCache = true`; a miss logs a warning; a thrown error is
caught and logged as a warning.  Returns `[restoredFromCache, cacheHitKey]`
with the emitted events. -/
def tryRestoreFromCache (outcome : RestoreOutcome) :
    (Bool × Option String) × List Event :=
  match outcome with
  | .hit k => ((true, some k), [])
  | .miss => ((false, none), [.warning ("Cache for " ++ TOOL_NAME ++ " not found")])
  | .throwErr msg => ((false, none), [.warning msg])

/-- `trySaveToCache` (install.ts lines 94–104): a thrown error is caught
and logged as a warning; the cache id defaults to `0`. -/
def trySaveToCache (outcome : SaveOutcome) : Nat × List Event :=
  match outcome with
  | .ok cacheId => (cacheId, [])
  | .throwErr msg => (0, [.warning msg])

/-- `downloadTool` (install.ts lines 81–92): the call to
`toolCache.downloadTool` is recorded as a `download` event; `dlExec` is
the local path it returns, `none` when it throws, in which case the
run fails (`setFailed` + `process.exit`). -/
def downloadTool (dlExec : Option String) (url : URLObj) :
    Except Failure String × List Event :=
  match dlExec with
  | some localPath => (.ok localPath, [.download url.href])
  | none => (.error .downloadFailed, [.download url.href])

/-- `getDownloadUrl(releaseMetadata)` (install.ts lines 124–147): fail and
exit unless the architecture is `x64`; map `win32 → win`, `darwin → osx`,
keep `linux`, fail and exit on any other platform; then read
`files["{platform}-{arch}"].url` (a missing key makes the `.url`
dereference throw a `TypeError`), build the `URL` (via the ambient parser
`parse`) and derive the filename from its pathname. -/
def getDownloadUrl (parse : String → URLObj) (releaseMetadata : ReleaseEntry)
    (platform arch : String) : Except Failure (URLObj × String) :=
  if arch ≠ "x64" then
    .error (.unsupportedArch arch)
  else
    let platformKey : Option String :=
      if platform = "win32" then some "win"
      else if platform = "darwin" then some "osx"
      else if platform = "linux" then some "linux"
      else none
    match platformKey with
    | none => .error (.unsupportedPlatform platform)
    | some pk =>
      match releaseMetadata.files.lookup (pk ++ "-" ++ arch) with
      | none => .error .typeError
      | some urlString =>
        let downloadUrl := parse urlString
        .ok (downloadUrl, filenameOfPathname downloadUrl.pathname)

/-- `getToolVersion` (install.ts lines 48–52): trimmed stdout of running
the tool with the `version` argument; `toolExec = none` when the
invocation throws, and the error propagates. -/
def getToolVersion (toolExec : Option String) : Except Failure String :=
  match toolExec with
  | some stdout => .ok (strTrim stdout)
  | none => .error .execError

/-- The environment of one `Install` run: the parsed metadata response,
the process platform/architecture, the temp directory, and the outcomes
of every external call the pipeline may make. -/
structure Env where
  doc : Option (List (Option ReleaseEntry))
  tempDir : String
  platform : String
  arch : String
  lsbExec : Option String
  restoreResult : RestoreOutcome
  saveResult : SaveOutcome
  dlExec : Option String
  parse : String → URLObj
  toolExec : Option String

/-- The record `Install` returns (install.ts line 45). -/
structure InstallResult where
  name : String
  version : String
  path : String
  restoredFromCache : Bool
  downloadUrl : Option String
deriving DecidableEq, Repr

/-- The tail of `Install` shared by both branches: `core.addPath`, then the
diagnostic `getToolVersion` (whose failure propagates, `toolExec` being
the raw stdout of the tool invocation), then the returned record. -/
def finishInstall (toolExec : Option String) (version pathToInstall : String)
    (restoredFromCache : Bool) (downloadUrlHref : Option String)
    (events : List Event) : Except Failure InstallResult × List Event :=
  match getToolVersion toolExec with
  | .error f => (.error f, events)
  | .ok _toolVersion =>
    (.ok { name := TOOL_NAME, version := version, path := pathToInstall,
           restoredFromCache := restoredFromCache,
           downloadUrl := downloadUrlHref }, events)

/-- The fresh-install branch of `Install` (install.ts lines 33–39), taken
when `restoredFromCache === false`: run `getDownloadUrl` (which exits on
an unsupported architecture or platform), call `downloadTool`, extract,
and make the best-effort cache save before finishing. -/
def installFresh (env : Env) (releaseMetadata : ReleaseEntry)
    (pathToInstall : String) (evRestore : List Event) :
    Except Failure InstallResult × List Event :=
  match getDownloadUrl env.parse releaseMetadata env.platform env.arch with
  | .error f => (.error f, evRestore)
  | .ok (downloadUrl, _filename) =>
    match downloadTool env.dlExec downloadUrl with
    | (.error f, dlEvents) => (.error f, evRestore ++ dlEvents)
    | (.ok _downloadPath, dlEvents) =>
      let saved := trySaveToCache env.saveResult
      finishInstall env.toolExec releaseMetadata.version pathToInstall false
        (some downloadUrl.href) (evRestore ++ dlEvents ++ saved.2)

/-- `Install(inputs)` (install.ts lines 22–46): resolve the release
metadata (a `none` find result crashes at the `releaseMetadata.buildId`
template dereference), build the version marker and install path, derive
the cache key, try the cache, and on `restoredFromCache === false` run
the fresh-install branch before returning. -/
def Install (env : Env) (inputs : SourceInputs) :
    Except Failure InstallResult × List Event :=
  match getReleaseMetadata inputs.version env.doc with
  | .error f => (.error f, [])
  | .ok none => (.error .typeError, [])
  | .ok (some releaseMetadata) =>
    let versionMarker := releaseMetadata.buildId ++ "-" ++ releaseMetadata.version
    let pathToInstall := pathJoin env.tempDir (TOOL_NAME ++ "-" ++ versionMarker)
    match getCacheKey env.lsbExec versionMarker env.platform env.arch with
    | .error f => (.error f, [])
    | .ok _cacheKey =>
      let restored := tryRestoreFromCache env.restoreResult
      let restoredFromCache := restored.1.1
      if restoredFromCache = false then
        installFresh env releaseMetadata pathToInstall restored.2
      else
        finishInstall env.toolExec releaseMetadata.version pathToInstall true none
          restored.2

/-! ### Filesystem model for `extractPackage` (install.ts lines 72–79) -/

/-- A filesystem as a map from path to permission mode (`none`: absent). -/
def FS := String → Option Nat

/-- `extractPackage(downloadPath, pathToInstall, filename)`: copy the
downloaded artifact to `path.join(pathToInstall, filename)`, set its mode
to `0o755` with `chmodSync`, then remove the downloaded temporary.  The
copied file's mode before the `chmod` is the source file's (`cpMode`). -/
def extractPackage (fs : FS) (downloadPath pathToInstall filename : String)
    (cpMode : Nat) : FS :=
  let destinationPath := pathJoin pathToInstall filename
  fun p =>
    if p = downloadPath then none
    else if p = destinationPath then some 0o755
    else
      let _ := cpMode
      fs p

/-! ### Input parsing (`src/unnamed/part_000`, the input-helper module)

`getInputs` lower-cases the `version` input (defaulting to `"stable"`) and
parses the `execute` flag through a local `getBooleanInput` wrapper.  The
wrapper maps the raw input through the truthy list
`['true', 'True', 'TRUE', '1']` to the string `'true'` or `'false'` and
then passes that *string* to `core.getBooleanInput`.  The  `@actions/core`
functions are modelled from the toolkit source the wrapper's comment links
to: `getInput(name)` returns the configured value of the input called
`name` (empty when absent, `required` is `false` throughout) trimmed, and
`getBooleanInput(name)` reads the input called `name` and converts it,
throwing a `TypeError` (carrying the input name) when the value is neither
a YAML truthy nor falsy literal. -/

/-- `core.getInput(name, { required: false })` over the configured inputs
`inputsEnv` (a map from input name to its configured value). -/
def coreGetInput (inputsEnv : String → Option String) (name : String) : String :=
  strTrim ((inputsEnv name).getD "")

/-- `core.getBooleanInput(name, options)` from the linked toolkit source:
looks up the input called `name` and compares against the YAML boolean
literal lists, throwing otherwise. -/
def coreGetBooleanInput (inputsEnv : String → Option String) (name : String) :
    Except String Bool :=
  let val := coreGetInput inputsEnv name
  if val ∈ ["true", "True", "TRUE"] then .ok true
  else if val ∈ ["false", "False", "FALSE"] then .ok false
  else .error name

/-- The wrapper `getBooleanInput` of the input-helper module: map the raw
input through the extended truthy list to `'true'`/`'false'`, then call
`core.getBooleanInput` on that string. -/
def getBooleanInput (inputsEnv : String → Option String) (name : String) :
    Except String Bool :=
  let trueValue := ["true", "True", "TRUE", "1"]
  let val := if coreGetInput inputsEnv name ∈ trueValue then "true" else "false"
  coreGetBooleanInput inputsEnv val

/-! ### Concrete runs used as counterexamples and witnesses -/

/-- Environment for the no-matching-release run: the metadata array holds
one entry matching neither the specifier's `buildId` nor `version`. -/
def envNoMatch : Env :=
  { doc := some [some { buildId := "1.0.0", version := "stable", files := [] }],
    tempDir := "/tmp", platform := "darwin", arch := "x64", lsbExec := none,
    restoreResult := .miss, saveResult := .ok 0, dlExec := none,
    parse := fun s => { href := s, pathname := "" }, toolExec := none }

/-- Inputs configured for the action: `execute` is the literal `"true"`,
and no input named `"true"` or `"false"` exists. -/
def inputsEnvExecuteTrue : String → Option String :=
  fun n => if n = "execute" then some "true" else none

/-- The release entry used by the concrete environments below. -/
def entryStable : ReleaseEntry :=
  { buildId := "1.0.0", version := "stable",
    files := [("win-x64", "https://cdn.example/downloads/client.exe")] }

/-- A concrete run on an `arm64` machine whose cache restore hits. -/
def envHitArm : Env :=
  { doc := some [some entryStable], tempDir := "/tmp", platform := "darwin",
    arch := "arm64", lsbExec := none,
    restoreResult := .hit "StaticSitesClient-1.0.0-stable-darwin-arm64-cache",
    saveResult := .ok 1, dlExec := some "/tmp/u1/client.exe",
    parse := fun s => { href := s, pathname := "/downloads/client.exe" },
    toolExec := some "1.0.0\n" }

/-- The same `arm64` run with a cache miss instead of a hit. -/
def envMissArm : Env :=
  { envHitArm with restoreResult := .miss }

/-- A cache-miss run on a supported platform (`win32`/`x64`), whose
download succeeds. -/
def envMissWin : Env :=
  { envHitArm with restoreResult := .miss, platform := "win32", arch := "x64" }

/-! ## Helper lemmas about `jsSplit` -/

/-- `split` never returns an empty array. -/
theorem jsSplit_ne_nil (sep : Char) (l : List Char) : jsSplit sep l ≠ [] := by
  induction l with
  | nil => simp [jsSplit]
  | cons c rest ih =>
    unfold jsSplit
    split
    · simp
    · rcases h : jsSplit sep rest with _ | ⟨chunk, chunks⟩ <;> simp

/-- A string containing the separator splits into at least two chunks. -/
theorem jsSplit_length_ge_two (sep : Char) (l : List Char) (h : sep ∈ l) :
    2 ≤ (jsSplit sep l).length := by
  induction l with
  | nil => simp at h
  | cons c rest ih =>
    unfold jsSplit
    by_cases hc : c = sep
    · rw [if_pos hc]
      have := List.length_pos.mpr (jsSplit_ne_nil sep rest)
      simp only [List.length_cons]
      omega
    · have hrest : sep ∈ rest := by
        rcases List.mem_cons.mp h with h1 | h1
        · exact absurd h1.symm hc
        · exact h1
      have h2 := ih hrest
      rw [if_neg hc]
      rcases hs : jsSplit sep rest with _ | ⟨chunk, chunks⟩
      · exact absurd hs (jsSplit_ne_nil sep rest)
      · rw [hs] at h2
        simpa using h2

/-- Dropping the first element of a list of length at least two keeps the
last element. -/
theorem getLast?_drop_one {α : Type} (l : List α) (h : 2 ≤ l.length) :
    (l.drop 1).getLast? = l.getLast? := by
  match l with
  | [] => simp at h
  | [a] => simp at h
  | a :: b :: t => simp [List.getLast?_cons_cons]

/-- A string ending in the separator splits with an empty last chunk. -/
theorem jsSplit_getLast_sep (sep : Char) (l : List Char) (hne : l ≠ [])
    (h : l.getLast? = some sep) : (jsSplit sep l).getLast? = some [] := by
  induction l with
  | nil => simp at hne
  | cons c rest ih =>
    by_cases hr : rest = []
    · subst hr
      simp at h
      subst h
      simp [jsSplit]
    · have hlast : rest.getLast? = some sep := by
        rw [List.getLast?_cons] at h
        rw [List.getLast?_eq_getLast rest hr] at h ⊢
        simpa using h
      have ihh := ih hr hlast
      unfold jsSplit
      by_cases hc : c = sep
      · rw [if_pos hc]
        rcases hs : jsSplit sep rest with _ | ⟨chunk, chunks⟩
        · exact absurd hs (jsSplit_ne_nil sep rest)
        · rw [hs] at ihh
          simpa [List.getLast?_cons_cons] using ihh
      · rw [if_neg hc]
        have hmem : sep ∈ rest := by
          rw [List.getLast?_eq_getLast rest hr] at hlast
          have hh : rest.getLast hr = sep := by simpa using hlast
          rw [← hh]
          exact List.getLast_mem hr
        have hlen := jsSplit_length_ge_two sep rest hmem
        rcases hs : jsSplit sep rest with _ | ⟨chunk, chunks⟩
        · exact absurd hs (jsSplit_ne_nil sep rest)
        · rw [hs] at ihh hlen
          rcases chunks with _ | ⟨d, ds⟩
          · simp at hlen
          · simpa [List.getLast?_cons_cons] using ihh

/-- A string without the separator splits into a single chunk: itself. -/
theorem jsSplit_no_sep (sep : Char) (l : List Char) (h : sep ∉ l) :
    jsSplit sep l = [l] := by
  induction l with
  | nil => simp [jsSplit]
  | cons c rest ih =>
    have hc : c ≠ sep := fun he => h (he ▸ List.mem_cons_self c rest)
    have hrest : sep ∉ rest := fun hm => h (List.mem_cons_of_mem c hm)
    unfold jsSplit
    rw [if_neg hc, ih hrest]

/-! ## Claims -/

/-- C1 (counterexample): the specifier `"12345"` does not match the
spec's dotted-triple pattern `\d+\.\d+\.\d+`, yet the code's unescaped
regex accepts it and resolution selects the entry whose `buildId` equals
it even though its `version` field differs from the specifier — so
selection by version-field equality does not happen exactly on the
non-matching specifiers. -/
theorem c1_selection_counterexample :
    containsDottedTriple "12345" = false ∧
    matchesBuildIdPattern "12345" = true ∧
    getReleaseMetadata "12345"
        (some [some { buildId := "12345", version := "stable", files := [] }])
      = .ok (some { buildId := "12345", version := "stable", files := [] }) ∧
    ("stable" : String) ≠ "12345" :=
  ⟨by decide, by decide, rfl, by decide⟩

/-- C1 (amended): release resolution selects by `buildId` equality exactly
when the specifier matches the code's unanchored pattern
`([\d])+.([\d])+.([\d]+)` — whose unescaped dots match any non-line-break
character — and selects by `version`-field equality exactly when it does
not: any entry the resolver returns has its `buildId` equal to the
specifier when the pattern matches, and its `version` equal to the
specifier otherwise. -/
theorem c1_selection_amended (v : String) (defs : List (Option ReleaseEntry))
    (e : ReleaseEntry) (h : getReleaseMetadata v (some defs) = .ok (some e)) :
    (matchesBuildIdPattern v = true ∧ e.buildId = v) ∨
    (matchesBuildIdPattern v = false ∧ e.version = v) := by
  unfold getReleaseMetadata at h
  by_cases hne : defs.isEmpty
  · simp [hne] at h
  · by_cases hm : matchesBuildIdPattern v
    · left
      refine ⟨hm, ?_⟩
      simp only [hne, if_false, hm, if_true, Bool.false_eq_true] at h
      rcases hf : defs.find? fun vd => (vd.map ReleaseEntry.buildId) == some v with _ | vd
      · rw [hf] at h
        simp [Option.join] at h
      · rw [hf] at h
        have hpred := List.find?_some hf
        cases vd with
        | none => simp at hpred
        | some e' =>
          simp only [Option.join] at h
          cases h
          simpa using hpred
    · right
      refine ⟨by simpa using hm, ?_⟩
      simp only [hne, if_false, hm, if_true, Bool.false_eq_true] at h
      rcases hf : defs.find? fun vd => (vd.map ReleaseEntry.version) == some v with _ | vd
      · rw [hf] at h
        simp [Option.join] at h
      · rw [hf] at h
        have hpred := List.find?_some hf
        cases vd with
        | none => simp at hpred
        | some e' =>
          simp only [Option.join] at h
          cases h
          simpa using hpred

/-- Witness for C1 (amended) at the default specifier `"stable"`. -/
theorem c1_selection_amended_witness :
    (matchesBuildIdPattern "stable" = true ∧
      ({ buildId := "1.0.0", version := "stable", files := [] } : ReleaseEntry).buildId
        = "stable") ∨
    (matchesBuildIdPattern "stable" = false ∧
      ({ buildId := "1.0.0", version := "stable", files := [] } : ReleaseEntry).version
        = "stable") :=
  c1_selection_amended "stable"
    [some { buildId := "1.0.0", version := "stable", files := [] }]
    { buildId := "1.0.0", version := "stable", files := [] } rfl

/-- C2 (code evaluated at the failing input): when no entry matches the
specifier, `getReleaseMetadata` returns the absent (`undefined`) entry as
an ordinary success instead of failing with a no-matching-release error,
and `Install` then crashes with a `TypeError` when it dereferences
`releaseMetadata.buildId`. -/
theorem c2_no_match_returns_undefined :
    getReleaseMetadata "other"
        (some [some { buildId := "1.0.0", version := "stable", files := [] }])
      = .ok none ∧
    (Install envNoMatch { version := "other", execute := false }).1
      = .error Failure.typeError :=
  ⟨rfl, rfl⟩

/-- C5 (counterexample): changing only the OS input from `"linux"` to
`"linux-x64"` (all other inputs fixed, codename `"x64"`) yields the very
same cache key, because the non-Linux key format can collide with the
Linux format that embeds the codename. -/
theorem c5_cacheKey_counterexample :
    cacheKeyString "1.0.0-stable" "linux" "x64" "x64"
      = cacheKeyString "1.0.0-stable" "linux-x64" "x64" "x64" ∧
    ("linux" : String) ≠ "linux-x64" :=
  ⟨rfl, by decide⟩

/-- C5 (amended): the cache key equals
`"{toolName}-{versionMarker}-{os}-{arch}"` with `"-{codename}"` appended
only when the OS is Linux and `"-cache"` always appended last; it is a
pure deterministic function of its inputs, and differing any one of the
versionMarker, the arch, or (on Linux) the codename changes the key, as
does differing the OS between two non-Linux values — but differing the OS
between `"linux"` and a crafted non-Linux value can leave the key
unchanged. -/
theorem c5_cacheKey_amended :
    (∀ v p a l, cacheKeyString v p a l =
        TOOL_NAME ++ "-" ++ v ++ "-" ++ p ++ "-" ++ a
          ++ (if p = "linux" then "-" ++ l else "") ++ "-cache") ∧
    (∀ v v' p a l, cacheKeyString v p a l = cacheKeyString v' p a l → v = v') ∧
    (∀ v p a a' l, cacheKeyString v p a l = cacheKeyString v p a' l → a = a') ∧
    (∀ v a l l', cacheKeyString v "linux" a l = cacheKeyString v "linux" a l' → l = l') ∧
    (∀ v p p' a l l', p ≠ "linux" → p' ≠ "linux" →
      cacheKeyString v p a l = cacheKeyString v p' a l' → p = p') := by
  refine ⟨?_, ?_, ?_, ?_, ?_⟩
  · intro v p a l
    by_cases hp : p = "linux" <;> simp [cacheKeyString, hp]
  · intro v v' p a l h
    have hd := congrArg String.data h
    by_cases hp : p = "linux" <;> simp [cacheKeyString, hp] at hd <;>
      exact String.ext hd
  · intro v p a a' l h
    have hd := congrArg String.data h
    by_cases hp : p = "linux" <;> simp [cacheKeyString, hp] at hd <;>
      exact String.ext hd
  · intro v a l l' h
    have hd := congrArg String.data h
    simp [cacheKeyString] at hd
    exact String.ext hd
  · intro v p p' a l l' hp hp' h
    have hd := congrArg String.data h
    simp [cacheKeyString, hp, hp'] at hd
    exact String.ext hd

/-- Witness for C5 (amended): version-marker injectivity at a concrete
key pair. -/
theorem c5_cacheKey_amended_witness : ("1.0.0-stable" : String) = "1.0.0-stable" :=
  c5_cacheKey_amended.2.1 "1.0.0-stable" "1.0.0-stable" "win32" "x64" "focal" rfl

/-- C9: after `extractPackage` copies the downloaded artifact to
`path.join(pathToInstall, filename)` it sets that file's permission bits
to `0o755`, provided the temporary download path (which lives under a
fresh uuid directory) is not the destination itself. -/
theorem c9_extractPackage_mode (fs : FS) (downloadPath pathToInstall filename : String)
    (cpMode : Nat) (h : downloadPath ≠ pathJoin pathToInstall filename) :
    extractPackage fs downloadPath pathToInstall filename cpMode
      (pathJoin pathToInstall filename) = some 0o755 := by
  unfold extractPackage
  simp [Ne.symm h]

/-- Witness for C9 at a concrete fresh install. -/
theorem c9_extractPackage_mode_witness :
    extractPackage (fun _ => none) "/tmp/u1/client.exe" "/tmp/SSC" "client.exe" 420
      (pathJoin "/tmp/SSC" "client.exe") = some 0o755 :=
  c9_extractPackage_mode (fun _ => none) "/tmp/u1/client.exe" "/tmp/SSC" "client.exe"
    420 (by decide)

/-- C7 (code evaluated at the failing input): with the raw `execute`
input equal to the truthy literal `"true"` and no inputs named `"true"`
or `"false"` configured, the wrapper does not produce the flag `true`:
it passes the mapped string `"true"` to `core.getBooleanInput` as an
input *name*, the lookup of that absent input yields `""`, and the call
throws a `TypeError` instead of returning a boolean. -/
theorem c7_getBooleanInput_throws :
    getBooleanInput inputsEnvExecuteTrue "execute" = .error "true" := rfl

/-- C10 (counterexample): for a URL whose path contains no `'/'` at all
(possible for non-hierarchical URL schemes), the installed filename is the
empty string even though the path's last `'/'`-separated segment is the
whole path and the path does not end with `'/'` — because `.slice(1)`
discards the only chunk of the split. -/
theorem c10_filename_counterexample :
    filenameOfPathname "a@b" = "" ∧
    lastSegment "a@b" = "a@b" ∧
    "a@b".data.getLast? ≠ some '/' :=
  ⟨by decide, by decide, by decide⟩

/-- C10 (amended): whenever the URL's path contains a `'/'` (as every
hierarchical URL path does, beginning with one), the installed filename is
the last `'/'`-separated segment of the path; a path ending with `'/'`
yields the empty filename, as does a path containing no `'/'` at all; and
an empty filename makes the artifact's destination
`path.join(pathToInstall, filename)` the install directory path itself. -/
theorem c10_filename_amended (pathname pti : String) :
    ('/' ∈ pathname.data → filenameOfPathname pathname = lastSegment pathname) ∧
    (pathname.data.getLast? = some '/' → filenameOfPathname pathname = "") ∧
    ('/' ∉ pathname.data → filenameOfPathname pathname = "") ∧
    pathJoin pti "" = pti := by
  refine ⟨?_, ?_, ?_, ?_⟩
  · intro h
    unfold filenameOfPathname lastSegment
    rw [getLast?_drop_one _ (jsSplit_length_ge_two '/' pathname.data h)]
  · intro h
    have hne : pathname.data ≠ [] := by
      intro hn
      rw [hn] at h
      simp at h
    have hmem : '/' ∈ pathname.data := by
      rw [List.getLast?_eq_getLast _ hne] at h
      have hh : pathname.data.getLast hne = '/' := by simpa using h
      rw [← hh]
      exact List.getLast_mem hne
    unfold filenameOfPathname
    rw [getLast?_drop_one _ (jsSplit_length_ge_two '/' pathname.data hmem),
      jsSplit_getLast_sep '/' pathname.data hne h]
    rfl
  · intro h
    unfold filenameOfPathname
    rw [jsSplit_no_sep '/' pathname.data h]
    rfl
  · unfold pathJoin
    by_cases hp : pti = "" <;> simp [hp]

/-- Witness for C10 (amended) at a concrete download path. -/
theorem c10_filename_amended_witness :
    filenameOfPathname "/downloads/client.exe" = lastSegment "/downloads/client.exe" :=
  (c10_filename_amended "/downloads/client.exe" "/tmp/SSC").1 (by decide)

/-! ## Install-level lemmas -/

/-- `finishInstall` returns the events it was handed. -/
theorem finishInstall_snd (tx : Option String) (v p : String) (r : Bool)
    (d : Option String) (ev : List Event) : (finishInstall tx v p r d ev).2 = ev := by
  rcases h : getToolVersion tx with f | s <;> simp [finishInstall, h]

/-- The outcome of `finishInstall` does not depend on the event log. -/
theorem finishInstall_fst_congr (tx : Option String) (v p : String) (r : Bool)
    (d : Option String) (ev ev' : List Event) :
    (finishInstall tx v p r d ev).1 = (finishInstall tx v p r d ev').1 := by
  rcases h : getToolVersion tx with f | s <;> simp [finishInstall, h]

/-- When `finishInstall` returns a result, it is exactly the record built
from its arguments. -/
theorem finishInstall_fst_ok (tx : Option String) (v p : String) (r : Bool)
    (d : Option String) (ev : List Event) (res : InstallResult)
    (h : (finishInstall tx v p r d ev).1 = .ok res) :
    res = { name := TOOL_NAME, version := v, path := p,
            restoredFromCache := r, downloadUrl := d } := by
  rcases ht : getToolVersion tx with f | s <;>
    simp [finishInstall, ht] at h
  exact h.symm

/-- A metadata fetch failure terminates `Install` immediately. -/
theorem Install_meta_error (env : Env) (inputs : SourceInputs) (f : Failure)
    (hmeta : getReleaseMetadata inputs.version env.doc = .error f) :
    Install env inputs = (.error f, []) := by
  unfold Install
  rw [hmeta]

/-- An absent (`undefined`) resolution result makes `Install` crash with a
`TypeError` at the `releaseMetadata.buildId` dereference. -/
theorem Install_meta_none (env : Env) (inputs : SourceInputs)
    (hmeta : getReleaseMetadata inputs.version env.doc = .ok none) :
    Install env inputs = (.error .typeError, []) := by
  unfold Install
  rw [hmeta]

/-- A cache key derivation failure terminates `Install` before the cache
restore attempt. -/
theorem Install_key_error (env : Env) (inputs : SourceInputs)
    (rm : ReleaseEntry) (f : Failure)
    (hmeta : getReleaseMetadata inputs.version env.doc = .ok (some rm))
    (hkey : getCacheKey env.lsbExec (rm.buildId ++ "-" ++ rm.version)
      env.platform env.arch = .error f) :
    Install env inputs = (.error f, []) := by
  unfold Install
  rw [hmeta]
  dsimp only
  rw [hkey]

/-- Once the metadata and the cache key resolve, `Install` reduces to the
restore-then-branch core. -/
theorem Install_resolved (env : Env) (inputs : SourceInputs)
    (rm : ReleaseEntry) (ck : String)
    (hmeta : getReleaseMetadata inputs.version env.doc = .ok (some rm))
    (hkey : getCacheKey env.lsbExec (rm.buildId ++ "-" ++ rm.version)
      env.platform env.arch = .ok ck) :
    Install env inputs =
      if (tryRestoreFromCache env.restoreResult).1.1 = false then
        installFresh env rm
          (pathJoin env.tempDir (TOOL_NAME ++ "-" ++ (rm.buildId ++ "-" ++ rm.version)))
          (tryRestoreFromCache env.restoreResult).2
      else
        finishInstall env.toolExec rm.version
          (pathJoin env.tempDir (TOOL_NAME ++ "-" ++ (rm.buildId ++ "-" ++ rm.version)))
          true none (tryRestoreFromCache env.restoreResult).2 := by
  unfold Install
  rw [hmeta]
  dsimp only
  rw [hkey]

/-- The events handed to the fresh-install branch stay in its event log. -/
theorem installFresh_snd_sub (env : Env) (rm : ReleaseEntry) (P : String)
    (ev : List Event) (e : Event) (he : e ∈ ev) :
    e ∈ (installFresh env rm P ev).2 := by
  unfold installFresh
  rcases hdl : getDownloadUrl env.parse rm env.platform env.arch with f | ⟨url, fn⟩
  · exact he
  · rcases hdx : env.dlExec with _ | dlp <;> simp only [downloadTool]
    · exact List.mem_append_left _ he
    · rw [finishInstall_snd]
      exact List.mem_append_left _ (List.mem_append_left _ he)

/-- The fresh-install branch never reads the restore outcome, and its own
outcome does not depend on the event log. -/
theorem installFresh_restore_irrel (env : Env) (r r' : RestoreOutcome)
    (rm : ReleaseEntry) (P : String) (ev ev' : List Event) :
    (installFresh { env with restoreResult := r } rm P ev).1
      = (installFresh { env with restoreResult := r' } rm P ev').1 := by
  unfold installFresh
  dsimp only
  rcases hdl : getDownloadUrl env.parse rm env.platform env.arch with f | ⟨url, fn⟩
  · rfl
  · rcases hdx : env.dlExec with _ | dlp <;> simp only [downloadTool]
    exact finishInstall_fst_congr ..

/-- C3 (counterexample): on a cache miss with an unsupported architecture
the run halts at the architecture check and no download call occurs at
all, so a restore miss does not always lead to a download call. -/
theorem c3_miss_counterexample :
    Install envMissArm { version := "stable", execute := false }
      = (.error (.unsupportedArch "arm64"),
         [.warning "Cache for StaticSitesClient not found"]) := rfl

/-- C3 (amended): if the cache restore reports a hit, no download call
occurs and any returned result has `restoredFromCache = true` with
`downloadUrl` undefined; if the restore reports a miss or throws *and the
platform/architecture mapping succeeds*, a download call always occurs
and any returned result has `restoredFromCache = false` with
`downloadUrl` set to the URL that was downloaded; and a restore error is
downgraded to a warning, leaving the outcome identical to a plain miss. -/
theorem c3_cache_amended (env : Env) (inputs : SourceInputs)
    (rm : ReleaseEntry) (ck : String)
    (hmeta : getReleaseMetadata inputs.version env.doc = .ok (some rm))
    (hkey : getCacheKey env.lsbExec (rm.buildId ++ "-" ++ rm.version)
      env.platform env.arch = .ok ck) :
    (∀ k, env.restoreResult = .hit k →
      ((Install env inputs).2.all (fun e => !e.isDownload) = true ∧
       ∀ r, (Install env inputs).1 = .ok r →
         r.restoredFromCache = true ∧ r.downloadUrl = none)) ∧
    (∀ url fn, (tryRestoreFromCache env.restoreResult).1.1 = false →
      getDownloadUrl env.parse rm env.platform env.arch = .ok (url, fn) →
      (Event.download url.href ∈ (Install env inputs).2 ∧
       ∀ r, (Install env inputs).1 = .ok r →
         r.restoredFromCache = false ∧ r.downloadUrl = some url.href)) ∧
    (∀ m, (Install { env with restoreResult := .throwErr m } inputs).1
        = (Install { env with restoreResult := .miss } inputs).1 ∧
      Event.warning m ∈ (Install { env with restoreResult := .throwErr m } inputs).2) := by
  refine ⟨?_, ?_, ?_⟩
  · intro k hhit
    rw [Install_resolved env inputs rm ck hmeta hkey, hhit]
    simp only [tryRestoreFromCache]
    rw [if_neg (by simp)]
    constructor
    · rw [finishInstall_snd]
      rfl
    · intro r hr
      have hres := finishInstall_fst_ok env.toolExec rm.version
        (pathJoin env.tempDir (TOOL_NAME ++ "-" ++ (rm.buildId ++ "-" ++ rm.version)))
        true none [] r hr
      rw [hres]
      exact ⟨rfl, rfl⟩
  · intro url fn hmiss hdl
    rw [Install_resolved env inputs rm ck hmeta hkey, if_pos hmiss]
    unfold installFresh
    rw [hdl]
    rcases hdx : env.dlExec with _ | dlp <;> simp only [downloadTool]
    · constructor
      · simp
      · intro r hr
        simp at hr
    · constructor
      · rw [finishInstall_snd]
        simp
      · intro r hr
        have hres := finishInstall_fst_ok env.toolExec rm.version
          (pathJoin env.tempDir (TOOL_NAME ++ "-" ++ (rm.buildId ++ "-" ++ rm.version)))
          false (some url.href) _ r hr
        rw [hres]
        exact ⟨rfl, rfl⟩
  · intro m
    have e1 := Install_resolved { env with restoreResult := .throwErr m } inputs rm ck
      hmeta hkey
    have e2 := Install_resolved { env with restoreResult := .miss } inputs rm ck
      hmeta hkey
    rw [e1, e2]
    simp only [tryRestoreFromCache, Env.restoreResult]
    constructor
    · exact installFresh_restore_irrel ..
    · exact installFresh_snd_sub _ _ _ _ _ (by simp)

/-- Witness for C3 (amended): the hit part at the concrete `arm64` hit
run, and the miss part at the concrete `win32`/`x64` miss run. -/
theorem c3_cache_amended_witness :
    (Install envHitArm { version := "stable", execute := false }).2.all
      (fun e => !e.isDownload) = true ∧
    Event.download "https://cdn.example/downloads/client.exe"
      ∈ (Install envMissWin { version := "stable", execute := false }).2 :=
  ⟨((c3_cache_amended envHitArm { version := "stable", execute := false } entryStable
      "StaticSitesClient-1.0.0-stable-darwin-arm64-cache" rfl rfl).1
      "StaticSitesClient-1.0.0-stable-darwin-arm64-cache" rfl).1,
   ((c3_cache_amended envMissWin { version := "stable", execute := false } entryStable
      "StaticSitesClient-1.0.0-stable-win32-x64-cache" rfl rfl).2.1
      { href := "https://cdn.example/downloads/client.exe",
        pathname := "/downloads/client.exe" } "client.exe" rfl rfl).1⟩

/-- C4 (counterexample): a run whose reported architecture is `arm64`
(not the accepted `x64`) does not halt when the cache restore hits — it
returns a successful result, because the architecture check lives on the
download path only. -/
theorem c4_arch_counterexample :
    ("arm64" : String) ≠ "x64" ∧
    Install envHitArm { version := "stable", execute := false }
      = (.ok { name := "StaticSitesClient", version := "stable",
               path := "/tmp/StaticSitesClient-1.0.0-stable",
               restoredFromCache := true, downloadUrl := none }, []) :=
  ⟨by decide, rfl⟩

/-- C4 (amended): on the cache-miss path — the only path that can attempt
a download — a reported architecture other than `x64` halts the run with
an unsupported-architecture failure, and no download call ever occurs in
such a run. -/
theorem c4_arch_halt_amended (env : Env) (inputs : SourceInputs)
    (rm : ReleaseEntry) (ck : String)
    (hmeta : getReleaseMetadata inputs.version env.doc = .ok (some rm))
    (hkey : getCacheKey env.lsbExec (rm.buildId ++ "-" ++ rm.version)
      env.platform env.arch = .ok ck)
    (hmiss : (tryRestoreFromCache env.restoreResult).1.1 = false)
    (harch : env.arch ≠ "x64") :
    (Install env inputs).1 = .error (.unsupportedArch env.arch) ∧
    (Install env inputs).2.all (fun e => !e.isDownload) = true := by
  have hdl : getDownloadUrl env.parse rm env.platform env.arch
      = .error (.unsupportedArch env.arch) := by
    unfold getDownloadUrl
    rw [if_pos harch]
  rw [Install_resolved env inputs rm ck hmeta hkey, if_pos hmiss]
  unfold installFresh
  rw [hdl]
  constructor
  · rfl
  · rcases env.restoreResult with k | _ | m <;>
      simp [tryRestoreFromCache, Event.isDownload]

/-- Witness for C4 (amended) at the concrete `arm64` cache-miss run. -/
theorem c4_arch_halt_amended_witness :
    (Install envMissArm { version := "stable", execute := false }).1
      = .error (.unsupportedArch "arm64") :=
  (c4_arch_halt_amended envMissArm { version := "stable", execute := false }
    entryStable "StaticSitesClient-1.0.0-stable-darwin-arm64-cache" rfl rfl rfl
    (by decide)).1

/-- C6: when the cache restore reports a hit, `Install` returns
successfully for *every* platform and architecture value — the
platform/architecture checks are reached only on the cache-miss path, so
an unsupported architecture or operating system does not prevent success
(only the metadata resolution, the Linux codename query and the
diagnostic version query still run). -/
theorem c6_hit_skips_validation (env : Env) (inputs : SourceInputs)
    (rm : ReleaseEntry) (k ck tv : String)
    (hmeta : getReleaseMetadata inputs.version env.doc = .ok (some rm))
    (hkey : getCacheKey env.lsbExec (rm.buildId ++ "-" ++ rm.version)
      env.platform env.arch = .ok ck)
    (hhit : env.restoreResult = .hit k)
    (htool : env.toolExec = some tv) :
    (Install env inputs).1 = .ok
      { name := TOOL_NAME, version := rm.version,
        path := pathJoin env.tempDir
          (TOOL_NAME ++ "-" ++ (rm.buildId ++ "-" ++ rm.version)),
        restoredFromCache := true, downloadUrl := none } := by
  rw [Install_resolved env inputs rm ck hmeta hkey, hhit]
  simp only [tryRestoreFromCache]
  rw [if_neg (by simp)]
  unfold finishInstall getToolVersion
  rw [htool]

/-- Witness for C6 at the concrete unsupported-architecture
(`darwin`/`arm64`) hit run. -/
theorem c6_hit_skips_validation_witness :
    (Install envHitArm { version := "stable", execute := false }).1 = .ok
      { name := "StaticSitesClient", version := "stable",
        path := "/tmp/StaticSitesClient-1.0.0-stable",
        restoredFromCache := true, downloadUrl := none } :=
  c6_hit_skips_validation envHitArm { version := "stable", execute := false }
    entryStable "StaticSitesClient-1.0.0-stable-darwin-arm64-cache"
    "StaticSitesClient-1.0.0-stable-darwin-arm64-cache" "1.0.0\n" rfl rfl rfl rfl

/-- The fresh-install branch never reads the cache-save outcome for its
own outcome: only the warning it may log differs. -/
theorem installFresh_save_irrel (env : Env) (s s' : SaveOutcome)
    (rm : ReleaseEntry) (P : String) (ev : List Event) :
    (installFresh { env with saveResult := s } rm P ev).1
      = (installFresh { env with saveResult := s' } rm P ev).1 := by
  unfold installFresh
  dsimp only
  rcases hdl : getDownloadUrl env.parse rm env.platform env.arch with f | ⟨url, fn⟩
  · rfl
  · rcases hdx : env.dlExec with _ | dlp <;> simp only [downloadTool]
    exact finishInstall_fst_congr ..

/-- C8: a cache-save failure never changes the outcome of `Install` — the
run returns exactly what it returns when the save succeeds — and on the
path that reaches the save step, the save error is logged as a warning. -/
theorem c8_save_failure_harmless (env : Env) (inputs : SourceInputs)
    (cacheId : Nat) (msg : String) :
    ((Install { env with saveResult := .throwErr msg } inputs).1
      = (Install { env with saveResult := .ok cacheId } inputs).1) ∧
    (∀ rm ck url fn dlp,
      getReleaseMetadata inputs.version env.doc = .ok (some rm) →
      getCacheKey env.lsbExec (rm.buildId ++ "-" ++ rm.version)
        env.platform env.arch = .ok ck →
      (tryRestoreFromCache env.restoreResult).1.1 = false →
      getDownloadUrl env.parse rm env.platform env.arch = .ok (url, fn) →
      env.dlExec = some dlp →
      Event.warning msg
        ∈ (Install { env with saveResult := .throwErr msg } inputs).2) := by
  constructor
  · rcases hm : getReleaseMetadata inputs.version env.doc with f | _ | rm
    · rw [Install_meta_error { env with saveResult := .throwErr msg } inputs f hm,
        Install_meta_error { env with saveResult := .ok cacheId } inputs f hm]
    · rw [Install_meta_none { env with saveResult := .throwErr msg } inputs hm,
        Install_meta_none { env with saveResult := .ok cacheId } inputs hm]
    · rcases hk : getCacheKey env.lsbExec (rm.buildId ++ "-" ++ rm.version)
          env.platform env.arch with f | ck
      · rw [Install_key_error { env with saveResult := .throwErr msg } inputs rm f hm hk,
          Install_key_error { env with saveResult := .ok cacheId } inputs rm f hm hk]
      · rw [Install_resolved { env with saveResult := .throwErr msg } inputs rm ck hm hk,
          Install_resolved { env with saveResult := .ok cacheId } inputs rm ck hm hk]
        simp only [Env.restoreResult, Env.tempDir, Env.toolExec]
        by_cases hr : (tryRestoreFromCache env.restoreResult).1.1 = false
        · rw [if_pos hr, if_pos hr]
          exact installFresh_save_irrel ..
        · rw [if_neg hr, if_neg hr]
  · intro rm ck url fn dlp hm hk hr hdl hdx
    rw [Install_resolved { env with saveResult := .throwErr msg } inputs rm ck hm hk]
    simp only [Env.restoreResult, Env.tempDir]
    rw [if_pos hr]
    unfold installFresh
    simp only [Env.parse, Env.platform, Env.arch, Env.dlExec, Env.saveResult,
      Env.toolExec]
    rw [hdl, hdx]
    simp only [downloadTool, trySaveToCache]
    rw [finishInstall_snd]
    simp

/-- Witness for C8: outcome equality at the concrete hit run, and the
warning at the concrete `win32`/`x64` miss run whose save throws. -/
theorem c8_save_failure_harmless_witness :
    ((Install { envHitArm with saveResult := .throwErr "disk full" }
        { version := "stable", execute := false }).1
      = (Install { envHitArm with saveResult := .ok 5 }
          { version := "stable", execute := false }).1) ∧
    Event.warning "disk full"
      ∈ (Install { envMissWin with saveResult := .throwErr "disk full" }
          { version := "stable", execute := false }).2 :=
  ⟨(c8_save_failure_harmless envHitArm { version := "stable", execute := false }
      5 "disk full").1,
   (c8_save_failure_harmless envMissWin { version := "stable", execute := false }
      5 "disk full").2 entryStable "StaticSitesClient-1.0.0-stable-win32-x64-cache"
      { href := "https://cdn.example/downloads/client.exe",
        pathname := "/downloads/client.exe" } "client.exe" "/tmp/u1/client.exe"
      rfl rfl rfl rfl rfl⟩

end StaticSites
